import Mathlib

/-!
# Verification of the balance-aggregation and polling subsystem

Shallow embedding of the core of the `meme-ooorr-quickstart` frontend:
the address collector (`serviceAddresses`), the balance poller
(`updateBalance` and its timer gate), the service/wallet state store
(`ServicesProvider`), and the multicall client
(`getEthBalances`, `getErc20Balances` in `src/frontend/service/Multicall.ts`).

Address-format validation (`isAddress` from `ethers`) is an external library
function; definitions that call it are parametric in a predicate
`isAddr : String → Bool`.  A concrete executable stand-in `isAddrHex`
(0x-prefixed 40 lowercase hex digits, a sound subset of every Ethereum
address validator) instantiates it in witnesses and counterexamples.
Floating-point amounts are modelled as rationals.
-/

/-- On-chain data of a service record (`chain_data` in `src/frontend/pages/index.tsx`):
zero-or-more instance addresses (the field itself may be absent: `instances ?? []`)
and an optional multisig address. -/
structure ChainData where
  instances : Option (List String)
  multisig : Option String
deriving DecidableEq, Repr

/-- A service record as consumed by the providers: an identifier `hash`
plus on-chain data. -/
structure Service where
  hash : String
  chain_data : ChainData
deriving DecidableEq, Repr

/-- A wallet record (`Wallet` from `@/client`): the balance poller only reads
its `address` field, defensively (`!wallet.address` in `index.tsx:196`), so the
address is modelled as possibly absent. -/
structure Wallet where
  address : Option String
deriving DecidableEq, Repr

/-- Executable stand-in address validator for concrete instances:
`0x` followed by exactly 40 lowercase hexadecimal digits.  Every string it
accepts is accepted by `ethers`'s `isAddress`; strings like `""`,
`"undefined"` or `"banana"` are rejected by both. -/
def isAddrHex (s : String) : Bool :=
  match s.data with
  | '0' :: 'x' :: rest =>
      rest.length = 40 && rest.all (fun c => c.isDigit || ('a' ≤ c && c ≤ 'f'))
  | _ => false

/-- The address collector (`serviceAddresses`, `index.tsx:89-105`).
For each service, the inner `reduce` appends each instance address that passes
`isAddress`, then the multisig is appended if `isAddress(String(multisig))`
holds.  When the multisig is absent, the source tests the string
`"undefined"` (the JS stringification of `undefined`), which no address
validator accepts, so an absent multisig contributes nothing. -/
def serviceAddresses (isAddr : String → Bool) (services : List Service) :
    List String :=
  services.foldl
    (fun acc s =>
      let inner := (s.chain_data.instances.getD []).foldl
        (fun acc i => if isAddr i then acc ++ [i] else acc) []
      let acc := acc ++ inner
      match s.chain_data.multisig with
      | some m => if isAddr m then acc ++ [m] else acc
      | none => acc)
    []

/-- The monitored address list built by one balance-refresh cycle
(`walletsToCheck`, `index.tsx:194-202`): each wallet address that is present
and truthy (a missing or empty string is skipped), followed by each truthy
service-derived address.  `!getAddress` in the source is always false
(`getAddress` is an imported function) and is dropped.  Note the result is a
concatenated list, not a set: no deduplication occurs. -/
def walletsToCheck (wallets : List Wallet) (serviceAddrs : List String) :
    List String :=
  (wallets.foldl
    (fun acc w =>
      match w.address with
      | none => acc
      | some a => if a = "" then acc else acc ++ [a])
    [])
  ++ (serviceAddrs.foldl
    (fun acc a => if a = "" then acc else acc ++ [a]) [])

/-- The fold over `Promise.allSettled` results (`index.tsx:210-215`):
starting from 0, a fulfilled per-address call (`bal a = some v`) adds its
value, a rejected one (`bal a = none`) adds nothing.  The per-address
outcome oracle `bal` models `EthersService.getEthBalance`: `none` means the
independent call for that address rejected. -/
def settledSum (bal : String → Option ℚ) (addrs : List String) : ℚ :=
  addrs.foldl
    (fun acc a =>
      match bal a with
      | some v => acc + v
      | none => acc)
    0

/-- One balance-refresh cycle (`updateBalance`, `index.tsx:193-218`):
builds `walletsToCheck`, issues one independent `getEthBalance` call per
entry, sums the fulfilled results, and unconditionally publishes the sum via
`setBalance`.  The previously published balance `prev` is never consulted:
every cycle replaces it, which the return value makes explicit. -/
def updateBalance (bal : String → Option ℚ) (wallets : List Wallet)
    (serviceAddrs : List String) (prev : Option ℚ) : Option ℚ :=
  some (settledSum bal (walletsToCheck wallets serviceAddrs))

/-- Enabling condition of the balance poller's timer
(`useInterval(() => updateBalance(), wallets.length ? 5000 : null)`,
`index.tsx:220`): the delay is non-null exactly when the wallet record list
is non-empty.  The service-derived addresses play no part in the gate. -/
def balanceTimerEnabled (wallets : List Wallet) : Bool :=
  !wallets.isEmpty

/-! ## Multicall client (`src/frontend/service/Multicall.ts`) -/

/-- One read call handed to the multicall aggregator: target contract,
function selector, and arguments. -/
structure ContractCall where
  target : String
  selector : String
  args : List String
deriving DecidableEq, Repr

/-- `parseFloat(ethers.utils.formatEther(balance))` (`Multicall.ts:35`):
a wei amount scaled down by `10^18`, modelled exactly over the rationals. -/
def formatEther (wei : ℤ) : ℚ := (wei : ℚ) / 10 ^ 18

/-- `parseFloat(ethers.utils.formatUnits(balance, 18))` (`Multicall.ts:68`):
the raw token amount scaled down by the fixed default of 18 decimals,
whatever the token's actual decimals are. -/
def formatUnits18 (raw : ℤ) : ℚ := (raw : ℚ) / 10 ^ 18

/-- The batch built by `getEthBalances` (`Multicall.ts:27-29`): one
`getEthBalance(address)` call on the aggregator contract per input address. -/
def ethBalanceCalls (multicallContract : String) (addresses : List String) :
    List ContractCall :=
  addresses.map (fun a => ⟨multicallContract, "getEthBalance", [a]⟩)

/-- The batch built by `getErc20Balances` (`Multicall.ts:58-62`): one
`balanceOf(address)` call against the given token contract per input
address.  No `decimals()` call is ever issued. -/
def erc20BalanceCalls (contractAddress : String) (addresses : List String) :
    List ContractCall :=
  addresses.map (fun a => ⟨contractAddress, "balanceOf(address):(uint256)", [a]⟩)

/-- `getEthBalances` (`Multicall.ts:14-40`).  `multicallAll` models
`multicallProvider.all`: the single aggregated network round-trip, which
either rejects as a whole (`Except.error`) or returns one raw result per
call.  On success the source's `reduce` builds a record keyed by
`addresses[index]`; modelled as the index-aligned association list
(the aggregator guarantees one response per call, so the zip is exact
whenever the response length matches the request; theorems carry that
hypothesis explicitly). -/
def getEthBalances (multicallContract : String) (addresses : List String)
    (multicallAll : List ContractCall → Except String (List ℤ)) :
    Except String (List (String × ℚ)) :=
  (multicallAll (ethBalanceCalls multicallContract addresses)).map
    (fun responseData => addresses.zip (responseData.map formatEther))

/-- `getErc20Balances` (`Multicall.ts:49-73`): same batching as
`getEthBalances`, but each call targets the token contract with the
`balanceOf` selector, and each raw result is decoded at the fixed
18-decimal scale. -/
def getErc20Balances (addresses : List String) (contractAddress : String)
    (multicallAll : List ContractCall → Except String (List ℤ)) :
    Except String (List (String × ℚ)) :=
  (multicallAll (erc20BalanceCalls contractAddress addresses)).map
    (fun r => addresses.zip (r.map formatUnits18))

/-! ## Service/wallet state store (`ServicesProvider`, `index.tsx:82-153`) -/

/-- Observable state of `ServicesProvider`: the service list, the
initial-load flag, and the last deployment status (payload abstracted to a
string). -/
structure StoreState where
  services : List Service
  hasInitialLoaded : Bool
  serviceStatus : Option String
deriving DecidableEq, Repr

/-- Enabling condition of the deployment-status poll
(`useInterval(..., services.length ? 5000 : null)`, `index.tsx:122-130`):
the delay is non-null exactly when the service list is non-empty.
`hasInitialLoaded` is not consulted by this gate. -/
def statusPollEnabled (s : StoreState) : Bool :=
  !s.services.isEmpty

/-- Enabling condition of the service-list refresh
(`useInterval(..., hasInitialLoaded ? 5000 : null)`, `index.tsx:133-136`). -/
def listRefreshEnabled (s : StoreState) : Bool :=
  s.hasInitialLoaded

/-- State transitions of `ServicesProvider`.
`initialLoad`: the mount-time effect (`index.tsx:115-119`) completes —
`setServices(data)` followed by `setHasInitialLoaded(true)` in the same
promise chain; a failed fetch runs neither and leaves the state unchanged.
`listRefresh`: a tick of the gated list-refresh interval replaces the
service list wholesale (a failure only emits a notification).
`statusPoll`: a tick of the gated status interval reads
`services[0].hash` and stores the fetched status (last value wins). -/
inductive StoreStep : StoreState → StoreState → Prop
  | initialLoad (s : StoreState) (data : List Service) :
      StoreStep s ⟨data, true, s.serviceStatus⟩
  | listRefresh (s : StoreState) (data : List Service) :
      listRefreshEnabled s = true →
      StoreStep s ⟨data, s.hasInitialLoaded, s.serviceStatus⟩
  | statusPoll (s : StoreState) (st : String) :
      statusPollEnabled s = true →
      StoreStep s ⟨s.services, s.hasInitialLoaded, some st⟩

/-- States reachable from the provider's initial state
(`useState<Service[]>([])`, `useState(false)`): empty service list, flag
down, no status. -/
def StoreReachable (s : StoreState) : Prop :=
  Relation.ReflTransGen StoreStep ⟨[], false, none⟩ s

/-! ## Balance-poller tick overlap (`index.tsx:220`)

The scheduled unit is the arrow `() => updateBalance()`: it starts the
asynchronous refresh cycle and returns at once, discarding the promise.
The underlying interval timer (`setInterval`, via `useInterval`) re-fires
on its fixed period whether or not previously started cycles have settled,
so a new tick is enabled at every in-flight count.  The state is the
number of in-flight refresh cycles. -/

/-- Event-loop transitions of the balance poller: `tick` fires the interval
callback (a fire-and-forget dispatch of `updateBalance`), `settle` completes
one in-flight cycle's network calls. -/
inductive PollerStep : ℕ → ℕ → Prop
  | tick (n : ℕ) : PollerStep n (n + 1)
  | settle (n : ℕ) : PollerStep (n + 1) n

/-- In-flight counts reachable from quiescence. -/
def PollerReachable (n : ℕ) : Prop :=
  Relation.ReflTransGen PollerStep 0 n

/-- The contribution of one wallet record to `walletsToCheck`: its address
when present and truthy (non-empty), nothing otherwise. -/
def walletAddr (w : Wallet) : Option String :=
  match w.address with
  | none => none
  | some a => if a = "" then none else some a

/-- The address occurrences a single service record contributes, before
validation: its instance addresses then its multisig, in source order. -/
def serviceOccurrences (s : Service) : List String :=
  s.chain_data.instances.getD [] ++ s.chain_data.multisig.toList

/-! ## Concrete instances used in witnesses and counterexamples -/

/-- A well-formed address literal. -/
def addrA : String := "0x1111111111111111111111111111111111111111"

/-- A second well-formed address literal. -/
def addrB : String := "0x2222222222222222222222222222222222222222"

/-- A service record holding one valid instance address and no multisig. -/
def svcA : Service := ⟨"h1", ⟨some [addrA], none⟩⟩

/-! ## Helper lemmas -/

/-- The if-append accumulation pattern of the source's `reduce` calls is a
filter. -/
theorem foldl_filter_eq {α : Type} (p : α → Bool) (l : List α) :
    ∀ acc : List α,
      l.foldl (fun acc a => if p a then acc ++ [a] else acc) acc =
        acc ++ l.filter p := by
  induction l with
  | nil => intro acc; simp
  | cons a l ih =>
      intro acc
      cases h : p a <;> simp [List.foldl_cons, h, ih, List.filter_cons]

theorem walletFold_eq (l : List Wallet) :
    ∀ acc : List String,
      l.foldl (fun acc w =>
        match w.address with
        | none => acc
        | some a => if a = "" then acc else acc ++ [a]) acc =
        acc ++ l.filterMap walletAddr := by
  induction l with
  | nil => intro acc; simp
  | cons w l ih =>
      intro acc
      cases hw : w.address with
      | none => simp [List.foldl_cons, hw, ih, List.filterMap_cons, walletAddr]
      | some a =>
          by_cases ha : a = "" <;>
            simp [List.foldl_cons, hw, ha, ih, List.filterMap_cons, walletAddr]

theorem skipEmptyFold_eq (l : List String) :
    ∀ acc : List String,
      l.foldl (fun acc a => if a = "" then acc else acc ++ [a]) acc =
        acc ++ l.filter (fun a => !(a == "")) := by
  induction l with
  | nil => intro acc; simp
  | cons a l ih =>
      intro acc
      by_cases ha : a = "" <;>
        simp [List.foldl_cons, ha, ih, List.filter_cons]

/-- The monitored list is the presence-filtered wallet addresses followed by
the truthy service-derived addresses. -/
theorem walletsToCheck_eq (wallets : List Wallet) (serviceAddrs : List String) :
    walletsToCheck wallets serviceAddrs =
      wallets.filterMap walletAddr ++
        serviceAddrs.filter (fun a => !(a == "")) := by
  unfold walletsToCheck
  rw [walletFold_eq, skipEmptyFold_eq]
  simp

/-- The per-service step of `serviceAddresses`, isolated: appending one
service's validated occurrences. -/
theorem serviceAddressesStep_eq (isAddr : String → Bool) (acc : List String)
    (s : Service) :
    (let inner := (s.chain_data.instances.getD []).foldl
        (fun acc i => if isAddr i then acc ++ [i] else acc) []
     let acc := acc ++ inner
     match s.chain_data.multisig with
     | some m => if isAddr m then acc ++ [m] else acc
     | none => acc) =
      acc ++ (serviceOccurrences s).filter isAddr := by
  simp only [foldl_filter_eq, List.nil_append]
  cases hm : s.chain_data.multisig with
  | none => simp [serviceOccurrences, hm]
  | some m =>
      by_cases hv : isAddr m <;>
        simp [serviceOccurrences, hm, hv, List.filter_append]

/-- The address collector is the validity filter of the flattened occurrence
list: order preserved, invalid occurrences dropped, duplicates kept. -/
theorem serviceAddresses_eq_filter (isAddr : String → Bool)
    (services : List Service) :
    serviceAddresses isAddr services =
      (services.flatMap serviceOccurrences).filter isAddr := by
  have main : ∀ (ss : List Service) (acc : List String),
      ss.foldl
        (fun acc s =>
          let inner := (s.chain_data.instances.getD []).foldl
            (fun acc i => if isAddr i then acc ++ [i] else acc) []
          let acc := acc ++ inner
          match s.chain_data.multisig with
          | some m => if isAddr m then acc ++ [m] else acc
          | none => acc) acc =
        acc ++ (ss.flatMap serviceOccurrences).filter isAddr := by
    intro ss
    induction ss with
    | nil => intro acc; simp
    | cons s ss ih =>
        intro acc
        rw [List.foldl_cons, ih, List.flatMap_cons, List.filter_append,
          ← List.append_assoc]
        congr 1
        exact serviceAddressesStep_eq isAddr acc s
  simpa [serviceAddresses] using main services []

/-- `settledSum` as a fold with an arbitrary starting accumulator. -/
theorem settledSumFold_eq (bal : String → Option ℚ) (l : List String) :
    ∀ acc : ℚ,
      l.foldl
        (fun acc a =>
          match bal a with
          | some v => acc + v
          | none => acc) acc =
        acc + (l.filterMap bal).sum := by
  induction l with
  | nil => intro acc; simp
  | cons a l ih =>
      intro acc
      cases hb : bal a <;>
        simp [List.foldl_cons, hb, ih, List.filterMap_cons, add_assoc]

/-- The settled aggregate is the sum of the fulfilled results only. -/
theorem settledSum_eq_filterMap (bal : String → Option ℚ) (l : List String) :
    settledSum bal l = (l.filterMap bal).sum := by
  simpa [settledSum] using settledSumFold_eq bal l 0

theorem settledSum_nil (bal : String → Option ℚ) : settledSum bal [] = 0 :=
  rfl

theorem settledSum_cons (bal : String → Option ℚ) (x : String)
    (l : List String) :
    settledSum bal (x :: l) = (bal x).getD 0 + settledSum bal l := by
  cases hb : bal x <;>
    simp [settledSum_eq_filterMap, List.filterMap_cons, hb]

/-- Splitting the settled aggregate at one address: each of its `count`
occurrences contributes its (zero-defaulted) balance once. -/
theorem settledSum_count_split (bal : String → Option ℚ) (a : String)
    (l : List String) :
    settledSum bal l =
      (l.count a : ℚ) * (bal a).getD 0 +
        settledSum bal (l.filter (fun x => !(x == a))) := by
  induction l with
  | nil => simp [settledSum_nil]
  | cons x l ih =>
      by_cases hx : x = a
      · subst hx
        rw [settledSum_cons, ih]
        have hc : (x :: l).count x = l.count x + 1 := List.count_cons_self x l
        have hf : (x :: l).filter (fun y => !(y == x)) =
            l.filter (fun y => !(y == x)) := by
          simp [List.filter_cons]
        rw [hc, hf]
        push_cast
        ring
      · rw [settledSum_cons, ih]
        have hc : (x :: l).count a = l.count a := by
          simp [List.count_cons, hx]
        have hf : (x :: l).filter (fun y => !(y == a)) =
            x :: l.filter (fun y => !(y == a)) := by
          simp [List.filter_cons, hx]
        rw [hc, hf, settledSum_cons]
        ring

/-! ## Claims -/

/-- **C1.** In `updateBalance` the per-address balance calls are issued as
independent calls and gathered with `Promise.allSettled`: the published
aggregate is exactly the sum of the successfully fetched balances — a
failed address contributes nothing to the sum — and the refresh always
publishes a value, so no individual failure makes the whole refresh fail. -/
theorem C1_updateBalance_bestEffort (bal : String → Option ℚ)
    (wallets : List Wallet) (serviceAddrs : List String) (prev : Option ℚ) :
    updateBalance bal wallets serviceAddrs prev =
      some (((walletsToCheck wallets serviceAddrs).filterMap bal).sum) := by
  simp [updateBalance, settledSum_eq_filterMap]

/-- **C2, counterexample.** The interval callback `() => updateBalance()`
dispatches the refresh fire-and-forget, so the timer re-fires without
waiting for the previous cycle: after two ticks with no settlement, two
refresh cycles are simultaneously in flight, refuting the claim that the
in-flight count never exceeds one. -/
theorem C2_overlap_counterexample : PollerReachable 2 ∧ ¬ (2 ≤ 1) :=
  ⟨Relation.ReflTransGen.tail
      (Relation.ReflTransGen.tail Relation.ReflTransGen.refl (PollerStep.tick 0))
      (PollerStep.tick 1),
    by decide⟩

/-- **C2, amended.** Balance-refresh ticks are dispatched fire-and-forget:
a new tick may start while any number of previous cycles is still in
flight, so every in-flight count — in particular every overlap depth — is
reachable by the poller's event loop. -/
theorem C2_fireAndForget_overlap (n : ℕ) : PollerReachable n := by
  induction n with
  | zero => exact Relation.ReflTransGen.refl
  | succ n ih => exact Relation.ReflTransGen.tail ih (PollerStep.tick n)

/-- **C3, counterexample.** Two services carrying the same single valid
address: the input contains exactly one distinct valid address string, yet
`serviceAddresses` returns it twice — the collected list is not
deduplicated. -/
theorem C3_dedup_counterexample :
    serviceAddresses isAddrHex
        [⟨"h1", ⟨some [addrA], none⟩⟩, ⟨"h2", ⟨some [addrA], none⟩⟩] =
      [addrA, addrA] ∧
    ¬ (serviceAddresses isAddrHex
        [⟨"h1", ⟨some [addrA], none⟩⟩, ⟨"h2", ⟨some [addrA], none⟩⟩]).Nodup := by
  constructor
  · decide
  · decide

/-- **C3, amended.** For every validator and every service list,
`serviceAddresses` returns exactly the valid-format occurrences of the
flattened input — instances then multisig, per service, in traversal
order — excluding every invalid string but preserving duplicates: it is
the validity filter of the occurrence list, not a deduplicated set. -/
theorem C3_serviceAddresses_filter (isAddr : String → Bool)
    (services : List Service) :
    serviceAddresses isAddr services =
      (services.flatMap serviceOccurrences).filter isAddr :=
  serviceAddresses_eq_filter isAddr services

/-- Invariant of the service store: a non-empty service list implies the
initial load has completed — the list starts empty and is only ever set by
the mount-time load (which raises the flag in the same promise chain) or by
the flag-gated list refresh. -/
theorem storeReachable_loaded (s : StoreState) (hs : StoreReachable s) :
    s.services ≠ [] → s.hasInitialLoaded = true := by
  induction hs with
  | refl => intro h; exact absurd rfl h
  | tail hab hbc ih =>
      cases hbc with
      | initialLoad data => intro _; rfl
      | listRefresh data hg =>
          intro _
          simpa [listRefreshEnabled] using hg
      | statusPoll st hg => exact ih

/-- **C4.** In every reachable state of the service store, the
deployment-status poll is enabled only when the initial load has completed
and the service list is non-empty; since the list starts empty and is only
populated by a completed fetch, the poll can never fire before the first
successful service-list fetch. -/
theorem C4_statusPoll_gated (s : StoreState) (hs : StoreReachable s)
    (hen : statusPollEnabled s = true) :
    s.hasInitialLoaded = true ∧ s.services ≠ [] := by
  have hne : s.services ≠ [] := by
    simpa [statusPollEnabled, List.isEmpty_iff] using hen
  exact ⟨storeReachable_loaded s hs hne, hne⟩

/-- **C4, witness.** The state reached by one completed initial load with a
single service: the status poll is enabled there, and the theorem yields
the flag and non-emptiness. -/
theorem C4_witness :
    (⟨[svcA], true, none⟩ : StoreState).hasInitialLoaded = true ∧
      (⟨[svcA], true, none⟩ : StoreState).services ≠ [] :=
  C4_statusPoll_gated ⟨[svcA], true, none⟩
    (Relation.ReflTransGen.single (StoreStep.initialLoad ⟨[], false, none⟩ [svcA]))
    (by decide)

/-- **C5, counterexample.** One wallet record without an address: the
monitored address set is empty, yet the balance timer is enabled — the
gate tests only `wallets.length`, not the monitored set, so the claim that
an empty monitored set disables the timer is false. -/
theorem C5_emptySet_timer_counterexample :
    walletsToCheck [⟨none⟩] [] = [] ∧ balanceTimerEnabled [⟨none⟩] = true := by
  constructor
  · rfl
  · rfl

/-- **C5, amended.** The balance timer is disabled exactly when the wallet
record list is empty — which need not coincide with the monitored address
set being empty.  Still, a tick over an empty monitored set issues no
balance RPC call: the cycle queries one address per entry of
`walletsToCheck`, and with no entries its published result is 0
independently of the network oracle. -/
theorem C5_timer_gate (wallets : List Wallet) (serviceAddrs : List String)
    (bal : String → Option ℚ) (prev : Option ℚ)
    (hempty : walletsToCheck wallets serviceAddrs = []) :
    (balanceTimerEnabled wallets = false ↔ wallets = []) ∧
      updateBalance bal wallets serviceAddrs prev = some 0 := by
  constructor
  · simp [balanceTimerEnabled, List.isEmpty_iff]
  · simp [updateBalance, hempty, settledSum_nil]

/-- **C5, witness.** At the counterexample's input — a wallet record with no
address — the amended statement is discharged concretely: the gate
equivalence holds (both sides false) and the tick publishes 0. -/
theorem C5_witness :
    (balanceTimerEnabled [⟨none⟩] = false ↔ ([⟨none⟩] : List Wallet) = []) ∧
      updateBalance (fun _ => some 3) [⟨none⟩] [] none = some 0 :=
  C5_timer_gate [⟨none⟩] [] (fun _ => some 3) none rfl

/-- **C6, counterexample.** A refresh cycle in which every per-address call
fails, run while the previously published balance is 5: the cycle
publishes `some 0`, replacing the prior balance rather than retaining it —
refuting the stale-but-available claim for `updateBalance`. -/
theorem C6_retention_counterexample :
    updateBalance (fun _ => none) [⟨some addrA⟩] [] (some 5) = some 0 ∧
      some (0 : ℚ) ≠ some (5 : ℚ) := by
  constructor
  · rfl
  · simp

/-- **C6, amended.** No refresh cycle retains the previously published
balance: every cycle — in particular one in which every per-address call
fails — publishes the sum of its own successful results, which is 0 when
all calls fail, whatever the prior value was. -/
theorem C6_failed_cycle_publishes_zero (bal : String → Option ℚ)
    (wallets : List Wallet) (serviceAddrs : List String) (prev : Option ℚ)
    (hfail : ∀ a ∈ walletsToCheck wallets serviceAddrs, bal a = none) :
    updateBalance bal wallets serviceAddrs prev = some 0 := by
  have h : (walletsToCheck wallets serviceAddrs).filterMap bal = [] :=
    List.filterMap_eq_nil_iff.2 hfail
  simp [updateBalance, settledSum_eq_filterMap, h]

/-- **C6, witness.** A concrete all-failing cycle over one wallet address,
with prior balance 7: it publishes 0. -/
theorem C6_witness :
    updateBalance (fun _ => none) [⟨some addrB⟩] [] (some 7) = some 0 :=
  C6_failed_cycle_publishes_zero (fun _ => none) [⟨some addrB⟩] [] (some 7)
    (fun _ _ => rfl)

/-- **C7.** `getEthBalances` is atomic in its single aggregated round-trip:
if the multicall endpoint fails, the whole operation returns that network
error and no partial per-address result; if it succeeds with one raw
result per call, the produced record has exactly one entry per input
address, keyed by the addresses in order. -/
theorem C7_getEthBalances_atomic (mc : String) (addresses : List String)
    (multicallAll : List ContractCall → Except String (List ℤ)) :
    (∀ e, multicallAll (ethBalanceCalls mc addresses) = Except.error e →
        getEthBalances mc addresses multicallAll = Except.error e) ∧
    (∀ res, multicallAll (ethBalanceCalls mc addresses) = Except.ok res →
        res.length = addresses.length →
        getEthBalances mc addresses multicallAll =
            Except.ok (addresses.zip (res.map formatEther)) ∧
          (addresses.zip (res.map formatEther)).map Prod.fst = addresses) := by
  constructor
  · intro e he
    simp [getEthBalances, he, Except.map]
  · intro res hres hlen
    refine ⟨by simp [getEthBalances, hres, Except.map], ?_⟩
    exact List.map_fst_zip _ _ (by simp [hlen])

/-- **C7, witness.** A failing endpoint propagates its error unchanged; a
succeeding one-address batch yields a record keyed by that address. -/
theorem C7_witness :
    getEthBalances "0xmc" [addrA] (fun _ => Except.error "down") =
        Except.error "down" ∧
    getEthBalances "0xmc" [addrA] (fun _ => Except.ok [0]) =
        Except.ok ([addrA].zip (([0] : List ℤ).map formatEther)) ∧
    ([addrA].zip (([0] : List ℤ).map formatEther)).map Prod.fst = [addrA] :=
  ⟨(C7_getEthBalances_atomic "0xmc" [addrA] (fun _ => Except.error "down")).1
      "down" rfl,
    ((C7_getEthBalances_atomic "0xmc" [addrA] (fun _ => Except.ok [0])).2
      [0] rfl rfl).1,
    ((C7_getEthBalances_atomic "0xmc" [addrA] (fun _ => Except.ok [0])).2
      [0] rfl rfl).2⟩

/-- **C8.** `getErc20Balances` issues exactly one call per input address,
each targeting the given token contract with the `balanceOf(address)`
selector and that address as sole argument, and decodes every returned raw
amount at the fixed 18-decimal scale (dividing by `10 ^ 18`), with no
query of the token's actual decimals. -/
theorem C8_getErc20Balances_spec (addresses : List String)
    (contractAddress : String)
    (multicallAll : List ContractCall → Except String (List ℤ)) :
    (erc20BalanceCalls contractAddress addresses).length = addresses.length ∧
    (∀ (i : ℕ) (a : String), addresses[i]? = some a →
        (erc20BalanceCalls contractAddress addresses)[i]? =
          some (ContractCall.mk contractAddress
            "balanceOf(address):(uint256)" [a])) ∧
    (∀ res,
        multicallAll (erc20BalanceCalls contractAddress addresses) =
          Except.ok res →
        getErc20Balances addresses contractAddress multicallAll =
          Except.ok
            (addresses.zip (res.map (fun raw : ℤ => (raw : ℚ) / 10 ^ 18)))) := by
  refine ⟨by simp [erc20BalanceCalls], ?_, ?_⟩
  · intro i a ha
    simp [erc20BalanceCalls, List.getElem?_map, ha]
  · intro res hres
    unfold getErc20Balances
    rw [hres]
    rfl

/-- **C8, witness.** A one-address batch against token contract `addrB`:
one `balanceOf` call carrying the address, decoded by division by
`10 ^ 18`. -/
theorem C8_witness :
    (erc20BalanceCalls addrB [addrA]).length = [addrA].length ∧
    (erc20BalanceCalls addrB [addrA])[0]? =
        some (ContractCall.mk addrB "balanceOf(address):(uint256)" [addrA]) ∧
    getErc20Balances [addrA] addrB (fun _ => Except.ok [5]) =
        Except.ok
          ([addrA].zip (([5] : List ℤ).map (fun raw : ℤ => (raw : ℚ) / 10 ^ 18))) :=
  ⟨(C8_getErc20Balances_spec [addrA] addrB (fun _ => Except.ok [5])).1,
    (C8_getErc20Balances_spec [addrA] addrB (fun _ => Except.ok [5])).2.1
      0 addrA rfl,
    (C8_getErc20Balances_spec [addrA] addrB (fun _ => Except.ok [5])).2.2
      [5] rfl⟩

/-- **C9, counterexample.** A wallet record whose address field holds the
non-address string `"banana"`: `updateBalance` adds it to the monitored
list after a mere presence check — the string enters the monitored set
although it passes no format validation. -/
theorem C9_validation_counterexample :
    walletsToCheck [⟨some "banana"⟩] [] = ["banana"] ∧
      isAddrHex "banana" = false := by
  constructor
  · rfl
  · rfl

/-- **C9, amended.** Monitored addresses pass through two different checks:
every service-derived entry passed the format validator, but a
wallet-derived entry passed only a presence (truthiness) check — any
present, non-empty wallet address string is monitored unvalidated.
Absent or empty values are dropped silently, and the collection functions
are total, so nothing raises. -/
theorem C9_monitored_membership (isAddr : String → Bool)
    (services : List Service) (wallets : List Wallet) (a : String)
    (ha : a ∈ walletsToCheck wallets (serviceAddresses isAddr services)) :
    (∃ w ∈ wallets, w.address = some a ∧ a ≠ "") ∨ isAddr a = true := by
  rw [walletsToCheck_eq] at ha
  rcases List.mem_append.1 ha with h | h
  · left
    obtain ⟨w, hw, hwa⟩ := List.mem_filterMap.1 h
    cases hww : w.address with
    | none => simp [walletAddr, hww] at hwa
    | some b =>
        by_cases hb : b = ""
        · simp [walletAddr, hww, hb] at hwa
        · simp [walletAddr, hww, hb] at hwa
          subst hwa
          exact ⟨w, hw, hww, hb⟩
  · right
    have h3 : a ∈ serviceAddresses isAddr services := (List.mem_filter.1 h).1
    rw [serviceAddresses_eq_filter] at h3
    exact (List.mem_filter.1 h3).2

/-- **C9, witness.** The unvalidated wallet string `"banana"` is monitored;
the theorem attributes it to the wallet channel (presence check only). -/
theorem C9_witness :
    (∃ w ∈ [(⟨some "banana"⟩ : Wallet)],
        w.address = some "banana" ∧ "banana" ≠ "") ∨
      isAddrHex "banana" = true :=
  C9_monitored_membership isAddrHex [] [⟨some "banana"⟩] "banana" (by decide)

/-- **C10.** An address appearing both as a wallet address and among the
service-derived addresses is queried twice in one refresh cycle — it
occurs at least twice in the concatenated monitored list, one balance call
per occurrence — and the published aggregate adds its balance once per
occurrence: the aggregate splits as the occurrence count times the
address's balance plus the contribution of all other entries. -/
theorem C10_duplicate_double_count (bal : String → Option ℚ)
    (wallets : List Wallet) (serviceAddrs : List String) (a : String)
    (w : Wallet) (hw : w ∈ wallets) (hwa : w.address = some a)
    (hne : a ≠ "") (hs : a ∈ serviceAddrs) :
    2 ≤ (walletsToCheck wallets serviceAddrs).count a ∧
    settledSum bal (walletsToCheck wallets serviceAddrs) =
      ((walletsToCheck wallets serviceAddrs).count a : ℚ) * (bal a).getD 0 +
        settledSum bal
          ((walletsToCheck wallets serviceAddrs).filter
            (fun x => !(x == a))) := by
  refine ⟨?_, settledSum_count_split bal a _⟩
  rw [walletsToCheck_eq, List.count_append]
  have h1 : a ∈ wallets.filterMap walletAddr :=
    List.mem_filterMap.2 ⟨w, hw, by simp [walletAddr, hwa, hne]⟩
  have h2 : a ∈ serviceAddrs.filter (fun x => !(x == "")) :=
    List.mem_filter.2 ⟨hs, by simp [hne]⟩
  have c1 : 0 < (wallets.filterMap walletAddr).count a :=
    List.count_pos_iff.2 h1
  have c2 : 0 < (serviceAddrs.filter (fun x => !(x == ""))).count a :=
    List.count_pos_iff.2 h2
  omega

/-- **C10, witness.** `addrA` as both the only wallet address and the only
service-derived address, every call returning 1: it is monitored twice and
the aggregate doubles its balance. -/
theorem C10_witness :
    2 ≤ (walletsToCheck [⟨some addrA⟩] [addrA]).count addrA ∧
    settledSum (fun _ => some (1 : ℚ)) (walletsToCheck [⟨some addrA⟩] [addrA]) =
      ((walletsToCheck [⟨some addrA⟩] [addrA]).count addrA : ℚ) *
          (((fun _ : String => some (1 : ℚ)) addrA).getD 0) +
        settledSum (fun _ => some (1 : ℚ))
          ((walletsToCheck [⟨some addrA⟩] [addrA]).filter
            (fun x => !(x == addrA))) :=
  C10_duplicate_double_count (fun _ => some (1 : ℚ)) [⟨some addrA⟩] [addrA]
    addrA ⟨some addrA⟩ (by decide) rfl (by decide) (by decide)
